import Mathlib

/-!
Shallow embedding of the cached, retrying API-access layer of the
`mark_performance` repository: the disk-backed cache (`src/cache_manager.py`,
class `CacheManager`) and the retrying fetcher / upstream client
(`src/riot_api.py`, class `RiotAPI`).

Modelling conventions:
* JSON-serializable Python values are modelled by `JsonValue`; Python
  truthiness (`if x:`) by `pyTruthy`.
* The file system under `cache_dir` is a list of `FileRec` records
  (file name key, mtime, content); `os.remove` in the happy path always
  succeeds.  File contents are either a well-formed cache entry, valid
  JSON that is not a well-formed entry (field access raises, caught by
  the generic handler), or non-JSON bytes (`json.JSONDecodeError`).
* `hashlib.sha256(...).hexdigest()` is an opaque deterministic function
  `hash : String → String` carried in the configuration record.
* Timestamps (`datetime.now`, `os.path.getmtime`) are integers supplied
  explicitly by the caller of each operation.
* The network (`aiohttp` session) is an oracle `script : Nat → Attempt`
  giving the outcome of the i-th network call of one logical fetch.
-/

/-- JSON-serializable Python value, as decoded by `json.load` /
`response.json()`. -/
inductive JsonValue where
  | null
  | bool (b : Bool)
  | num (n : Int)
  | str (s : String)
  | arr (xs : List JsonValue)
  | obj (kvs : List (String × JsonValue))
deriving Repr

/-- Python truthiness of a decoded JSON value: `None`, `False`, `0`, `""`,
`[]` and `{}` are falsy, everything else truthy. -/
def pyTruthy : JsonValue → Bool
  | .null => false
  | .bool b => b
  | .num n => n != 0
  | .str s => !s.isEmpty
  | .arr xs => !xs.isEmpty
  | .obj kvs => !kvs.isEmpty

/-- Python's tuple comparison on pairs: lexicographic, first component
first. -/
def lexLe {α β : Type} [LinearOrder α] [LinearOrder β] (a b : α × β) : Prop :=
  a.1 < b.1 ∨ (a.1 = b.1 ∧ a.2 ≤ b.2)

instance {α β : Type} [LinearOrder α] [LinearOrder β] :
    DecidableRel (lexLe (α := α) (β := β)) :=
  fun _ _ => inferInstanceAs (Decidable (_ ∨ _))

instance lexLe.isTotal {α β : Type} [LinearOrder α] [LinearOrder β] :
    IsTotal (α × β) lexLe where
  total a b := by
    rcases lt_trichotomy a.1 b.1 with h | h | h
    · exact Or.inl (Or.inl h)
    · rcases le_total a.2 b.2 with h2 | h2
      · exact Or.inl (Or.inr ⟨h, h2⟩)
      · exact Or.inr (Or.inr ⟨h.symm, h2⟩)
    · exact Or.inr (Or.inl h)

instance lexLe.isTrans {α β : Type} [LinearOrder α] [LinearOrder β] :
    IsTrans (α × β) lexLe where
  trans a b c hab hbc := by
    rcases hab with h1 | ⟨h1, h1'⟩ <;> rcases hbc with h2 | ⟨h2, h2'⟩
    · exact Or.inl (lt_trans h1 h2)
    · exact Or.inl (h2 ▸ h1)
    · exact Or.inl (h1 ▸ h2)
    · exact Or.inr ⟨h1.trans h2, le_trans h1' h2'⟩

instance lexLe.isAntisymm {α β : Type} [LinearOrder α] [LinearOrder β] :
    IsAntisymm (α × β) lexLe where
  antisymm a b hab hba := by
    rcases hab with h1 | ⟨h1, h1'⟩ <;> rcases hba with h2 | ⟨h2, h2'⟩
    · exact absurd h2 (lt_asymm h1)
    · exact absurd h1 (h2 ▸ lt_irrefl _)
    · exact absurd h2 (h1 ▸ lt_irrefl _)
    · exact Prod.ext h1 (le_antisymm h1' h2')

/-! ## Cache key fingerprinting (`CacheManager._get_cache_key`) -/

/-- Model of `sorted(params.items())`: Python's stable ascending sort of the
key/value pairs under tuple comparison. -/
def sortedParams (ps : List (String × String)) : List (String × String) :=
  List.insertionSort lexLe ps

/-- Model of `json.dumps(sorted_params, sort_keys=True)`: render the sorted pair
list as a JSON array of two-element arrays (string escaping of the
payload characters is not modelled; it is a fixed injective character
mapping). -/
def renderParams (ps : List (String × String)) : String :=
  "[" ++ String.intercalate ", "
    (ps.map fun p => "[\x22" ++ p.1 ++ "\x22, \x22" ++ p.2 ++ "\x22]") ++ "]"

/-- The string that gets hashed: `f"{url}{params_str}"` when `params` is
truthy (a non-empty dict), else just `url`. -/
def cacheString (url : String) (params : Option (List (String × String))) : String :=
  match params with
  | some ps => if ps.isEmpty then url else url ++ renderParams (sortedParams ps)
  | none => url

/-- Configuration of one `CacheManager` instance: the opaque SHA-256 hex
digest function, `default_ttl` and `max_cache_size` from `__init__`. -/
structure CacheConfig where
  hash : String → String
  default_ttl : Int
  max_cache_size : Nat

/-- Model of `CacheManager._get_cache_key`: SHA-256 hex digest of the cache
string. -/
def getCacheKey (cfg : CacheConfig) (url : String)
    (params : Option (List (String × String))) : String :=
  cfg.hash (cacheString url params)

/-! ## Cache store state (`CacheManager` persisted files) -/

/-- A well-formed persisted cache entry: the dict
`{created_at, ttl, data}` written by `set`.  `get` reads `ttl` with
`cache_data.get('ttl', self.default_ttl)`, hence the field is optional
on read. -/
structure CacheEntry where
  created_at : Int
  ttl : Option Int
  data : JsonValue
deriving Repr

/-- Content of one persisted `<key>.json` file as seen by a reader:
either not valid JSON (`json.load` raises `JSONDecodeError`), valid
JSON that is not a well-formed entry (field access / timestamp parse
raises, caught by the generic `except Exception` handler), or a
well-formed entry. -/
inductive FileContent where
  | notJson
  | badEntry
  | entry (e : CacheEntry)
deriving Repr

/-- One file under `cache_dir`: its name stem (the cache key), its
modification time (`os.path.getmtime`) and its content. -/
structure FileRec where
  key : String
  mtime : Int
  content : FileContent
deriving Repr

/-- Look a file up by key (the `os.path.exists` / `open` pair). -/
def lookupFile (store : List FileRec) (key : String) : Option FileRec :=
  store.find? fun f => f.key == key

/-- Model of `os.remove` of the file named by `key`. -/
def removeFile (store : List FileRec) (key : String) : List FileRec :=
  store.filter fun f => f.key != key

/-- Writing `<key>.json` replaces any previous file of that name and
stamps its mtime with the write time. -/
def upsertFile (store : List FileRec) (f : FileRec) : List FileRec :=
  f :: removeFile store f.key

/-- Model of `cache_data.get('ttl', self.default_ttl)` in `CacheManager.get`. -/
def entryTtl (cfg : CacheConfig) (e : CacheEntry) : Int :=
  e.ttl.getD cfg.default_ttl

/-- Model of `CacheManager.get`: locate the entry for the fingerprint of
`(url, params)`; return its payload when `now - created_at <
timedelta(seconds=ttl)`, else delete the stale file and return `None`;
a `JSONDecodeError` deletes the corrupt file and returns `None`; any
other read failure is logged and returns `None` without deleting.
Returns the result together with the store as left on disk. -/
def cacheGet (cfg : CacheConfig) (store : List FileRec) (url : String)
    (params : Option (List (String × String))) (now : Int) :
    Option JsonValue × List FileRec :=
  let key := getCacheKey cfg url params
  match lookupFile store key with
  | none => (none, store)
  | some f =>
    match f.content with
    | .entry e =>
      if now - e.created_at < entryTtl cfg e then (some e.data, store)
      else (none, removeFile store key)
    | .notJson => (none, removeFile store key)
    | .badEntry => (none, store)

/-- Python's `ttl or self.default_ttl` on `ttl : Optional[int]`: both
`None` and `0` are falsy and fall back to the default. -/
def pyOrInt (ttl : Option Int) (dflt : Int) : Int :=
  match ttl with
  | some t => if t = 0 then dflt else t
  | none => dflt

/-- The file that `CacheManager.set` writes for `(url, params)`:
content `{created_at: now, ttl: ttl or default_ttl, data}`, mtime
stamped `now`. -/
def setFileRec (cfg : CacheConfig) (url : String)
    (params : Option (List (String × String))) (data : JsonValue)
    (ttl : Option Int) (now : Int) : FileRec :=
  { key := getCacheKey cfg url params
    mtime := now
    content := .entry { created_at := now, ttl := some (pyOrInt ttl cfg.default_ttl), data } }

/-- Eviction order of `_clean_oldest_cache`: Python sorts the
`(mtime, cache_file)` tuples, i.e. by mtime with file-name tie-break. -/
def fileLe (a b : FileRec) : Prop :=
  lexLe (a.mtime, a.key) (b.mtime, b.key)

instance : DecidableRel fileLe :=
  fun _ _ => inferInstanceAs (Decidable (lexLe _ _))

instance fileLe.isTotal : IsTotal FileRec fileLe where
  total a b := IsTotal.total (r := lexLe) (a.mtime, a.key) (b.mtime, b.key)

instance fileLe.isTrans : IsTrans FileRec fileLe where
  trans _ _ _ hab hbc := IsTrans.trans (r := lexLe) _ _ _ hab hbc

/-- Model of `cache_files.sort()` on the collected `(mtime, cache_file)` list. -/
def sortFiles (store : List FileRec) : List FileRec :=
  List.insertionSort fileLe store

/-- The `while len(cache_files) > self.max_cache_size: pop(0); remove`
loop: repeatedly drop the head of the (sorted) list while the count
exceeds the cap. -/
def evictLoop (maxSize : Nat) : List FileRec → List FileRec
  | [] => []
  | f :: rest =>
    if rest.length + 1 > maxSize then evictLoop maxSize rest else f :: rest

/-- Model of `CacheManager._clean_oldest_cache`: sort all cache files oldest
first, then remove the oldest while the count exceeds
`max_cache_size`. -/
def cleanOldestCache (maxSize : Nat) (store : List FileRec) : List FileRec :=
  evictLoop maxSize (sortFiles store)

/-- Model of `CacheManager.set`: write `{created_at: now, ttl: ttl or default,
data}` under the fingerprint key, then run the eviction pass; returns
`True` and the resulting store. -/
def cacheSet (cfg : CacheConfig) (store : List FileRec) (url : String)
    (data : JsonValue) (params : Option (List (String × String)))
    (ttl : Option Int) (now : Int) : Bool × List FileRec :=
  (true, cleanOldestCache cfg.max_cache_size
    (upsertFile store (setFileRec cfg url params data ttl now)))

/-- Model of `CacheManager.get_cache_size`: number of `.json` files currently
persisted. -/
def getCacheSize (store : List FileRec) : Nat :=
  store.length

/-! ## Retrying fetcher (`RiotAPI._make_request`) -/

/-- Outcome of one network call inside `_make_request`: an HTTP
response (status code, optional integer `Retry-After` header, decoded
JSON body), an `aiohttp.ClientConnectionError`, another
`aiohttp.ClientError`, or any other exception. -/
inductive Attempt where
  | response (status : Nat) (retryAfter : Option Int) (body : JsonValue)
  | connectionError
  | clientError
  | otherException
deriving Repr

/-- Observable trace of one `_make_request` call: the returned value,
the number of network calls performed, and the `asyncio.sleep` delays
in order. -/
structure FetchTrace where
  result : Option JsonValue
  attempts : Nat
  sleeps : List Int
deriving Repr

/-- Outcomes that make `_make_request` continue its retry loop: a 429,
a 5xx, a connection error or another `aiohttp.ClientError`. -/
def retryable : Attempt → Bool
  | .response status _ _ =>
    status == 429 || (500 ≤ status && status < 600)
  | .connectionError => true
  | .clientError => true
  | .otherException => false

/-- An outcome that carries no server-suggested `Retry-After` wait
hint used by the 429 branch. -/
def noHint : Attempt → Bool
  | .response 429 (some _) _ => false
  | _ => true

/-- The `if cached_result:` test on the value returned by
`self.cache.get`: `None` and falsy payloads both fail it. -/
def truthyHit : Option JsonValue → Bool
  | some v => pyTruthy v
  | none => false

/-- The `for retry in range(max_retries + 1)` loop of `_make_request`.
`fuel` is the number of loop iterations left, `i` the index of the
next network call, `delay` the current `retry_delay`.  Each iteration
performs one network call (`script i`) and classifies it exactly as
the source does; a 200 writes the parsed body through
`CacheManager.set` before returning. -/
def requestLoop (cfg : CacheConfig) (script : Nat → Attempt) (url : String)
    (params : Option (List (String × String))) (ttl : Option Int) (now : Int) :
    Nat → Nat → Int → List FileRec → FetchTrace × List FileRec
  | 0, i, _, store => (⟨none, i, []⟩, store)
  | fuel + 1, i, delay, store =>
    match script i with
    | .response status retryAfter body =>
      if status = 200 then
        (⟨some body, i + 1, []⟩, (cacheSet cfg store url body params ttl now).2)
      else if status = 429 then
        let wait := min (retryAfter.getD delay) 30
        let r := requestLoop cfg script url params ttl now fuel (i + 1)
          (min (delay * 2) 30) store
        (⟨r.1.result, r.1.attempts, wait :: r.1.sleeps⟩, r.2)
      else if 400 ≤ status ∧ status < 500 then
        (⟨none, i + 1, []⟩, store)
      else if 500 ≤ status ∧ status < 600 then
        let r := requestLoop cfg script url params ttl now fuel (i + 1)
          (min (delay * 2) 30) store
        (⟨r.1.result, r.1.attempts, delay :: r.1.sleeps⟩, r.2)
      else
        (⟨none, i + 1, []⟩, store)
    | .connectionError =>
      let r := requestLoop cfg script url params ttl now fuel (i + 1)
        (min (delay * 2) 30) store
      (⟨r.1.result, r.1.attempts, delay :: r.1.sleeps⟩, r.2)
    | .clientError =>
      let r := requestLoop cfg script url params ttl now fuel (i + 1)
        (min (delay * 2) 30) store
      (⟨r.1.result, r.1.attempts, delay :: r.1.sleeps⟩, r.2)
    | .otherException =>
      (⟨none, i + 1, []⟩, store)

/-- Model of `RiotAPI._make_request`: consult the cache first and return
immediately when the cached value is truthy; otherwise run the retry
loop with `max_retries + 1` iterations, starting from
`retry_delay = 1`. -/
def makeRequest (cfg : CacheConfig) (script : Nat → Attempt)
    (store : List FileRec) (url : String)
    (params : Option (List (String × String))) (maxRetries : Nat)
    (ttl : Option Int) (now : Int) : FetchTrace × List FileRec :=
  let g := cacheGet cfg store url params now
  if truthyHit g.1 then (⟨g.1, 0, []⟩, g.2)
  else requestLoop cfg script url params ttl now (maxRetries + 1) 0 1 g.2

/-! ## Upstream client (`RiotAPI.get_recent_matches`) -/

/-- Model of `summoner.get('puuid')`: dict lookup with default `None`; the
summoner record returned by the API is an object. -/
def jsonGet (v : JsonValue) (k : String) : Option JsonValue :=
  match v with
  | .obj kvs => (kvs.find? fun p => p.1 == k).map Prod.snd
  | _ => none

/-- Model of `for match_id in match_ids` over the decoded JSON list returned by
the match-ids endpoint. -/
def jsonIter : JsonValue → List JsonValue
  | .arr xs => xs
  | _ => []

/-- Model of `RiotAPI.get_recent_matches`, with the three network-backed
sub-calls as oracles: `summonerRes` is the result of
`get_summoner_by_name`, `getIds puuid` the result of `_make_request`
on the by-puuid ids endpoint, `getDetail mid` the result of
`get_match_detail`.  All the `if not x:` guards of the source are
`pyTruthy` tests; details that come back `None` or falsy are
skipped. -/
def getRecentMatches (summonerRes : Option JsonValue)
    (getIds : JsonValue → Option JsonValue)
    (getDetail : JsonValue → Option JsonValue) : List JsonValue :=
  if !truthyHit summonerRes then []
  else
    match summonerRes with
    | none => []
    | some summoner =>
      match jsonGet summoner "puuid" with
      | none => []
      | some puuid =>
        if !pyTruthy puuid then []
        else
          match getIds puuid with
          | none => []
          | some ids =>
            if !pyTruthy ids then []
            else
              (jsonIter ids).filterMap fun mid =>
                match getDetail mid with
                | some d => if pyTruthy d then some d else none
                | none => none

/-! ## Concrete fixtures used by witnesses and counterexamples -/

/-- A concrete store configuration whose digest function is the
identity (the claims never depend on the digest's shape). -/
def cfg0 : CacheConfig := ⟨fun s => s, 3600, 1000⟩

/-! ## Helper lemmas about the eviction pass -/

theorem evictLoop_eq_drop (maxSize : Nat) :
    ∀ l : List FileRec, evictLoop maxSize l = l.drop (l.length - maxSize) := by
  intro l
  induction l with
  | nil => simp [evictLoop]
  | cons f rest ih =>
    unfold evictLoop
    split_ifs with h
    · have h1 : (f :: rest).length - maxSize = (rest.length - maxSize) + 1 := by
        simp only [List.length_cons]; omega
      rw [h1, List.drop_succ_cons, ih]
    · have h1 : (f :: rest).length - maxSize = 0 := by
        simp only [List.length_cons]; omega
      rw [h1, List.drop_zero]

theorem sortFiles_length (store : List FileRec) :
    (sortFiles store).length = store.length :=
  List.length_insertionSort fileLe store

theorem sortFiles_sorted (store : List FileRec) :
    List.Sorted fileLe (sortFiles store) :=
  List.sorted_insertionSort fileLe store

/-- C2: after every `set` the eviction pass runs; afterwards the number
of persisted cache entries never exceeds `max_cache_size`, and the
entries removed are exactly an oldest-first prefix of the files sorted
by write time: every removed file is at least as old as every file
kept. -/
theorem set_respects_eviction_bound (cfg : CacheConfig) (store : List FileRec)
    (url : String) (data : JsonValue) (params : Option (List (String × String)))
    (ttl : Option Int) (now : Int) :
    getCacheSize (cacheSet cfg store url data params ttl now).2 ≤ cfg.max_cache_size ∧
    ∃ removed,
      sortFiles (upsertFile store (setFileRec cfg url params data ttl now)) =
        removed ++ (cacheSet cfg store url data params ttl now).2 ∧
      ∀ r ∈ removed, ∀ k ∈ (cacheSet cfg store url data params ttl now).2, fileLe r k := by
  set l := sortFiles (upsertFile store (setFileRec cfg url params data ttl now)) with hl
  have hafter : (cacheSet cfg store url data params ttl now).2 =
      l.drop (l.length - cfg.max_cache_size) := by
    simp only [cacheSet, cleanOldestCache, ← hl]
    exact evictLoop_eq_drop _ _
  refine ⟨?_, l.take (l.length - cfg.max_cache_size), ?_, ?_⟩
  · rw [getCacheSize, hafter, List.length_drop]
    omega
  · rw [hafter, List.take_append_drop]
  · intro r hr k hk
    rw [hafter] at hk
    have hsort : List.Pairwise fileLe l := sortFiles_sorted _
    rw [← List.take_append_drop (l.length - cfg.max_cache_size) l] at hsort
    exact (List.pairwise_append.mp hsort).2.2 r hr k hk

/-- C3: for a stored well-formed entry, `get` returns the cached
payload exactly when `now - created_at < ttl`; when the entry is
expired it deletes the on-disk record and returns `None`. -/
theorem get_ttl_expiry (cfg : CacheConfig) (store : List FileRec) (url : String)
    (params : Option (List (String × String))) (now : Int) (f : FileRec)
    (e : CacheEntry)
    (hf : lookupFile store (getCacheKey cfg url params) = some f)
    (he : f.content = .entry e) :
    ((cacheGet cfg store url params now).1 = some e.data ↔
      now - e.created_at < entryTtl cfg e) ∧
    (¬ now - e.created_at < entryTtl cfg e →
      (cacheGet cfg store url params now).1 = none ∧
      (cacheGet cfg store url params now).2 =
        removeFile store (getCacheKey cfg url params)) := by
  simp only [cacheGet, hf, he]
  split_ifs with h <;> simp [h]

/-- A concrete store for the C3 witness: one fresh entry under key
`"u"`. -/
def storeC3 : List FileRec :=
  [⟨"u", 0, .entry ⟨0, some 10, .num 5⟩⟩]

/-- Witness for C3 at a concrete input: the entry for `"u"` is found,
is well-formed, and `get` at `now = 3` returns the payload exactly
because `3 - 0 < 10`. -/
theorem get_ttl_expiry_witness :
    lookupFile storeC3 (getCacheKey cfg0 "u" none) = some ⟨"u", 0, .entry ⟨0, some 10, .num 5⟩⟩ ∧
    (((cacheGet cfg0 storeC3 "u" none 3).1 = some (.num 5) ↔
      (3 : Int) - 0 < entryTtl cfg0 ⟨0, some 10, .num 5⟩) ∧
    (¬ (3 : Int) - 0 < entryTtl cfg0 ⟨0, some 10, .num 5⟩ →
      (cacheGet cfg0 storeC3 "u" none 3).1 = none ∧
      (cacheGet cfg0 storeC3 "u" none 3).2 =
        removeFile storeC3 (getCacheKey cfg0 "u" none))) :=
  ⟨rfl, get_ttl_expiry cfg0 storeC3 "u" none 3 _ ⟨0, some 10, .num 5⟩ rfl rfl⟩

/-- C4: the cache fingerprint is invariant under permutation of the
query-parameter pairs, because `_get_cache_key` sorts them before
hashing; the key is a function of the URL and the parameters alone. -/
theorem cache_key_permutation_invariant (cfg : CacheConfig) (url : String)
    (p1 p2 : List (String × String)) (h : p1.Perm p2) :
    getCacheKey cfg url (some p1) = getCacheKey cfg url (some p2) := by
  unfold getCacheKey
  congr 1
  unfold cacheString
  have hlen : p1.length = p2.length := h.length_eq
  have hsort : sortedParams p1 = sortedParams p2 :=
    List.eq_of_perm_of_sorted
      ((List.perm_insertionSort lexLe p1).trans
        (h.trans (List.perm_insertionSort lexLe p2).symm))
      (List.sorted_insertionSort lexLe p1)
      (List.sorted_insertionSort lexLe p2)
  simp only [List.isEmpty_iff_length_eq_zero, hlen, hsort]

/-- Witness for C4 at a concrete input: the two-pair parameter maps in
opposite orders are a permutation of each other and produce the same
fingerprint. -/
theorem cache_key_permutation_invariant_witness :
    List.Perm [("b", "2"), ("a", "1")] [("a", "1"), ("b", "2")] ∧
    getCacheKey cfg0 "u" (some [("b", "2"), ("a", "1")]) =
      getCacheKey cfg0 "u" (some [("a", "1"), ("b", "2")]) :=
  ⟨List.Perm.swap ("a", "1") ("b", "2") [],
    cache_key_permutation_invariant cfg0 "u" _ _
      (List.Perm.swap ("a", "1") ("b", "2") [])⟩

/-- A store whose only file for key `"u"` holds valid JSON that is not
a well-formed cache entry (e.g. the JSON text `[]`: loading succeeds,
the `created_at` field access raises and is caught by the generic
handler). -/
def storeC6 : List FileRec := [⟨"u", 0, .badEntry⟩]

/-- C6 counterexample: a persisted file whose content is malformed
(valid JSON but not a valid entry) makes `get` return absent, but the
offending file is NOT deleted — it is still on disk afterwards,
refuting the claim that every malformed entry is deleted on read. -/
theorem corrupt_entry_not_always_deleted_counterexample :
    (cacheGet cfg0 storeC6 "u" none 5).1 = none ∧
    (cacheGet cfg0 storeC6 "u" none 5).2 = storeC6 ∧
    (⟨"u", 0, .badEntry⟩ : FileRec) ∈ (cacheGet cfg0 storeC6 "u" none 5).2 :=
  ⟨rfl, rfl, List.mem_singleton.mpr rfl⟩

/-- C6 amended: a `get` on a malformed persisted file always returns
absent and never propagates an error; the file is deleted when its
content is not valid JSON (`JSONDecodeError` branch), while valid JSON
that is not a well-formed entry is left in place by the generic
exception handler. -/
theorem corrupt_entry_get_absent (cfg : CacheConfig) (store : List FileRec)
    (url : String) (params : Option (List (String × String))) (now : Int)
    (f : FileRec)
    (hf : lookupFile store (getCacheKey cfg url params) = some f) :
    (f.content = .notJson →
      (cacheGet cfg store url params now).1 = none ∧
      (cacheGet cfg store url params now).2 =
        removeFile store (getCacheKey cfg url params)) ∧
    (f.content = .badEntry →
      (cacheGet cfg store url params now).1 = none ∧
      (cacheGet cfg store url params now).2 = store) := by
  constructor <;> intro hc <;> simp [cacheGet, hf, hc]

/-- A store whose only file for key `"u"` is not valid JSON. -/
def storeC6b : List FileRec := [⟨"u", 0, .notJson⟩]

/-- Witness for the amended C6 at a concrete input: the non-JSON file
for `"u"` is found, `get` returns absent and deletes it. -/
theorem corrupt_entry_get_absent_witness :
    lookupFile storeC6b (getCacheKey cfg0 "u" none) = some ⟨"u", 0, .notJson⟩ ∧
    (((⟨"u", 0, .notJson⟩ : FileRec).content = .notJson →
      (cacheGet cfg0 storeC6b "u" none 5).1 = none ∧
      (cacheGet cfg0 storeC6b "u" none 5).2 =
        removeFile storeC6b (getCacheKey cfg0 "u" none)) ∧
    ((⟨"u", 0, .notJson⟩ : FileRec).content = .badEntry →
      (cacheGet cfg0 storeC6b "u" none 5).1 = none ∧
      (cacheGet cfg0 storeC6b "u" none 5).2 = storeC6b)) :=
  ⟨rfl, corrupt_entry_get_absent cfg0 storeC6b "u" none 5 ⟨"u", 0, .notJson⟩ rfl⟩

/-- C10 counterexample: a caller-supplied explicit `ttl = 0` is NOT
stored; `ttl or self.default_ttl` evaluates to the default (3600 here)
because `0` is falsy, refuting the claim that every explicit
entry-specific ttl is persisted. -/
theorem set_explicit_ttl_zero_ignored_counterexample :
    (cacheSet cfg0 [] "u" (.num 1) none (some 0) 100).2 =
      [⟨"u", 100, .entry ⟨100, some 3600, .num 1⟩⟩] ∧
    (3600 : Int) ≠ 0 :=
  ⟨rfl, by decide⟩

/-- C10 amended: `set` persists the entry under the fingerprint key
with `created_at = now` and `ttl = ttl or default_ttl`: a non-zero
explicit ttl is stored as given, while an absent ttl — or the falsy
explicit value `0` — falls back to the store-wide default. -/
theorem set_ttl_selection (cfg : CacheConfig) (url : String)
    (params : Option (List (String × String))) (data : JsonValue) (now : Int) :
    (∀ t : Int, t ≠ 0 →
      setFileRec cfg url params data (some t) now =
        ⟨getCacheKey cfg url params, now, .entry ⟨now, some t, data⟩⟩) ∧
    (setFileRec cfg url params data none now =
      ⟨getCacheKey cfg url params, now, .entry ⟨now, some cfg.default_ttl, data⟩⟩) ∧
    (setFileRec cfg url params data (some 0) now =
      ⟨getCacheKey cfg url params, now, .entry ⟨now, some cfg.default_ttl, data⟩⟩) := by
  refine ⟨fun t ht => ?_, rfl, ?_⟩
  · simp [setFileRec, pyOrInt, ht]
  · simp [setFileRec, pyOrInt]

/-- Witness for the amended C10 at a concrete input: the explicit
non-zero ttl `7` is stored as given. -/
theorem set_ttl_selection_witness :
    (7 : Int) ≠ 0 ∧
    setFileRec cfg0 "u" none (.num 1) (some 7) 100 =
      ⟨getCacheKey cfg0 "u" none, 100, .entry ⟨100, some 7, .num 1⟩⟩ :=
  ⟨by decide, (set_ttl_selection cfg0 "u" none (.num 1) 100).1 7 (by decide)⟩

/-! ## Helper lemmas about the retry loop -/

theorem requestLoop_attempts_le (cfg : CacheConfig) (script : Nat → Attempt)
    (url : String) (params : Option (List (String × String)))
    (ttl : Option Int) (now : Int) :
    ∀ (fuel i : Nat) (delay : Int) (store : List FileRec),
      (requestLoop cfg script url params ttl now fuel i delay store).1.attempts ≤
        i + fuel := by
  intro fuel
  induction fuel with
  | zero => intro i d s; simp [requestLoop]
  | succ fuel ih =>
    intro i d s
    cases hsc : script i with
    | response status ra body =>
      simp only [requestLoop, hsc]
      split_ifs with h200 h429 h4xx h5xx
      · simp
      · have := ih (i + 1) (min (d * 2) 30) s
        simp only [FetchTrace.attempts] at this ⊢
        omega
      · simp
      · have := ih (i + 1) (min (d * 2) 30) s
        simp only [FetchTrace.attempts] at this ⊢
        omega
      · simp
    | connectionError =>
      simp only [requestLoop, hsc]
      have := ih (i + 1) (min (d * 2) 30) s
      simp only [FetchTrace.attempts] at this ⊢
      omega
    | clientError =>
      simp only [requestLoop, hsc]
      have := ih (i + 1) (min (d * 2) 30) s
      simp only [FetchTrace.attempts] at this ⊢
      omega
    | otherException =>
      simp only [requestLoop, hsc]
      simp

theorem requestLoop_exhaust (cfg : CacheConfig) (script : Nat → Attempt)
    (url : String) (params : Option (List (String × String)))
    (ttl : Option Int) (now : Int)
    (hret : ∀ j, retryable (script j) = true) :
    ∀ (fuel i : Nat) (delay : Int) (store : List FileRec),
      (requestLoop cfg script url params ttl now fuel i delay store).1.result = none ∧
      (requestLoop cfg script url params ttl now fuel i delay store).1.attempts =
        i + fuel := by
  intro fuel
  induction fuel with
  | zero => intro i d s; simp [requestLoop]
  | succ fuel ih =>
    intro i d s
    have hi := hret i
    cases hsc : script i with
    | response status ra body =>
      rw [hsc] at hi
      simp only [retryable, Bool.or_eq_true, Bool.and_eq_true, beq_iff_eq,
        decide_eq_true_eq] at hi
      simp only [requestLoop, hsc]
      rcases hi with h429 | h5xx
      · rw [if_neg (by omega : ¬ status = 200), if_pos h429]
        have := ih (i + 1) (min (d * 2) 30) s
        simp only [FetchTrace.result, FetchTrace.attempts] at this ⊢
        exact ⟨this.1, by omega⟩
      · rw [if_neg (by omega : ¬ status = 200), if_neg (by omega : ¬ status = 429),
          if_neg (by omega : ¬ (400 ≤ status ∧ status < 500)), if_pos h5xx]
        have := ih (i + 1) (min (d * 2) 30) s
        simp only [FetchTrace.result, FetchTrace.attempts] at this ⊢
        exact ⟨this.1, by omega⟩
    | connectionError =>
      simp only [requestLoop, hsc]
      have := ih (i + 1) (min (d * 2) 30) s
      simp only [FetchTrace.result, FetchTrace.attempts] at this ⊢
      exact ⟨this.1, by omega⟩
    | clientError =>
      simp only [requestLoop, hsc]
      have := ih (i + 1) (min (d * 2) 30) s
      simp only [FetchTrace.result, FetchTrace.attempts] at this ⊢
      exact ⟨this.1, by omega⟩
    | otherException =>
      rw [hsc] at hi
      simp [retryable] at hi

theorem requestLoop_sleeps_mono (cfg : CacheConfig) (script : Nat → Attempt)
    (url : String) (params : Option (List (String × String)))
    (ttl : Option Int) (now : Int)
    (hnh : ∀ j, noHint (script j) = true) :
    ∀ (fuel i : Nat) (delay : Int) (store : List FileRec),
      1 ≤ delay → delay ≤ 30 →
      List.Chain' (· ≤ ·)
        (requestLoop cfg script url params ttl now fuel i delay store).1.sleeps ∧
      ∀ x ∈ (requestLoop cfg script url params ttl now fuel i delay store).1.sleeps,
        delay ≤ x := by
  intro fuel
  induction fuel with
  | zero =>
    intro i d s _ _
    simp [requestLoop]
  | succ fuel ih =>
    intro i d s hd1 hd30
    have hnext1 : (1 : Int) ≤ min (d * 2) 30 := by omega
    have hnext30 : min (d * 2) 30 ≤ (30 : Int) := by omega
    have hdnext : d ≤ min (d * 2) 30 := by omega
    have key : ∀ r : FetchTrace × List FileRec,
        List.Chain' (· ≤ ·) r.1.sleeps → (∀ x ∈ r.1.sleeps, min (d * 2) 30 ≤ x) →
        List.Chain' (· ≤ ·) (d :: r.1.sleeps) ∧
        ∀ x ∈ d :: r.1.sleeps, d ≤ x := by
      intro r hchain hge
      constructor
      · rw [List.chain'_cons']
        refine ⟨fun y hy => ?_, hchain⟩
        have : y ∈ r.1.sleeps := List.mem_of_mem_head? hy
        exact le_trans hdnext (hge y this)
      · intro x hx
        rcases List.mem_cons.mp hx with h | h
        · exact le_of_eq h.symm
        · exact le_trans hdnext (hge x h)
    have hmono : ∀ x ∈ (requestLoop cfg script url params ttl now fuel (i + 1)
        (min (d * 2) 30) s).1.sleeps, d ≤ x :=
      fun x hx => le_trans hdnext
        ((ih (i + 1) (min (d * 2) 30) s hnext1 hnext30).2 x hx)
    cases hsc : script i with
    | response status ra body =>
      simp only [requestLoop, hsc]
      split_ifs with h200 h429 h4xx h5xx
      · simp
      · have hra : ra = none := by
          have := hnh i
          rw [hsc, h429] at this
          cases ra with
          | none => rfl
          | some w => simp [noHint] at this
        have hwait : min (ra.getD d) 30 = d := by
          rw [hra]
          simp only [Option.getD]
          omega
        have hr := ih (i + 1) (min (d * 2) 30) s hnext1 hnext30
        simp only [FetchTrace.sleeps] at hr ⊢
        rw [hwait]
        exact key _ hr.1 hr.2
      · simp
      · have hr := ih (i + 1) (min (d * 2) 30) s hnext1 hnext30
        simp only [FetchTrace.sleeps] at hr ⊢
        exact key _ hr.1 hr.2
      · simp
    | connectionError =>
      simp only [requestLoop, hsc]
      have hr := ih (i + 1) (min (d * 2) 30) s hnext1 hnext30
      simp only [FetchTrace.sleeps] at hr ⊢
      exact key _ hr.1 hr.2
    | clientError =>
      simp only [requestLoop, hsc]
      have hr := ih (i + 1) (min (d * 2) 30) s hnext1 hnext30
      simp only [FetchTrace.sleeps] at hr ⊢
      exact key _ hr.1 hr.2
    | otherException =>
      simp only [requestLoop, hsc]
      simp

theorem cacheGet_hit_store_eq (cfg : CacheConfig) (store : List FileRec)
    (url : String) (params : Option (List (String × String))) (now : Int)
    (v : JsonValue) (h : (cacheGet cfg store url params now).1 = some v) :
    (cacheGet cfg store url params now).2 = store := by
  unfold cacheGet at h ⊢
  cases hf : lookupFile store (getCacheKey cfg url params) with
  | none => simp [hf]
  | some f =>
    cases hc : f.content with
    | entry e =>
      simp only [hf, hc] at h ⊢
      split_ifs with ht
      · rfl
      · rw [if_neg ht] at h
        exact Option.noConfusion h
    | notJson => simp [hf, hc] at h
    | badEntry => simp [hf, hc]

/-- C1: a fetch that misses the cache performs at most
`max_retries + 1` network attempts, and when every attempt's outcome
is retryable the loop exhausts its budget and returns `None` to the
caller (the model is a total function: no exception crosses the
fetcher boundary). -/
theorem fetch_attempts_bounded (cfg : CacheConfig) (script : Nat → Attempt)
    (store : List FileRec) (url : String)
    (params : Option (List (String × String))) (maxRetries : Nat)
    (ttl : Option Int) (now : Int) :
    (makeRequest cfg script store url params maxRetries ttl now).1.attempts ≤
      maxRetries + 1 ∧
    (truthyHit (cacheGet cfg store url params now).1 = false →
      (∀ j, retryable (script j) = true) →
      (makeRequest cfg script store url params maxRetries ttl now).1.result = none ∧
      (makeRequest cfg script store url params maxRetries ttl now).1.attempts =
        maxRetries + 1) := by
  constructor
  · simp only [makeRequest]
    split_ifs with h
    · simp
    · have := requestLoop_attempts_le cfg script url params ttl now
        (maxRetries + 1) 0 1 (cacheGet cfg store url params now).2
      simpa using this
  · intro hmiss hret
    simp only [makeRequest]
    rw [if_neg (by simp [hmiss])]
    have := requestLoop_exhaust cfg script url params ttl now hret
      (maxRetries + 1) 0 1 (cacheGet cfg store url params now).2
    simpa using this

/-- Network script for the C1 witness: every call is rate limited. -/
def scriptC1 : Nat → Attempt := fun _ => .response 429 none .null

/-- Witness for C1 at a concrete input: an empty cache (a miss), a
script that is always 429, `max_retries = 2`: at most and exactly 3
attempts, and the fetch returns `None`. -/
theorem fetch_attempts_bounded_witness :
    truthyHit (cacheGet cfg0 [] "u" none 0).1 = false ∧
    (∀ j, retryable (scriptC1 j) = true) ∧
    (makeRequest cfg0 scriptC1 [] "u" none 2 none 0).1.attempts ≤ 3 ∧
    ((makeRequest cfg0 scriptC1 [] "u" none 2 none 0).1.result = none ∧
      (makeRequest cfg0 scriptC1 [] "u" none 2 none 0).1.attempts = 3) :=
  ⟨rfl, fun _ => rfl,
    (fetch_attempts_bounded cfg0 scriptC1 [] "u" none 2 none 0).1,
    (fetch_attempts_bounded cfg0 scriptC1 [] "u" none 2 none 0).2 rfl fun _ => rfl⟩

/-- Network script for the C5 counterexample: a 429 carrying a
`Retry-After: 25` hint, then a 500, then a 200. -/
def scriptC5 : Nat → Attempt
  | 0 => .response 429 (some 25) .null
  | 1 => .response 500 none .null
  | _ => .response 200 none (.obj [("win", .bool true)])

/-- C5 counterexample: with a server-supplied `Retry-After: 25` hint on
the first (429) response and a 500 on the second, the two sleeps of
one logical fetch are `[25, 2]` — the second delay is strictly smaller
than the first, refuting monotone non-decreasing delays. -/
theorem retry_delays_not_monotone_counterexample :
    (makeRequest cfg0 scriptC5 [] "u" none 3 none 0).1.sleeps = [25, 2] ∧
    ¬ ((25 : Int) ≤ 2) :=
  ⟨rfl, by decide⟩

/-- C5 amended: the internal backoff delay grows monotonically, so in
any run in which no 429 response carries a server-supplied
`Retry-After` hint, the sleep delays of a single logical fetch are
monotonically non-decreasing (in particular the second is at least the
first); a 429 hint may override its sleep and break monotonicity. -/
theorem retry_delays_monotone_without_hints (cfg : CacheConfig)
    (script : Nat → Attempt) (store : List FileRec) (url : String)
    (params : Option (List (String × String))) (maxRetries : Nat)
    (ttl : Option Int) (now : Int)
    (hnh : ∀ j, noHint (script j) = true) :
    List.Chain' (· ≤ ·)
      (makeRequest cfg script store url params maxRetries ttl now).1.sleeps := by
  simp only [makeRequest]
  split_ifs with h
  · simp
  · exact (requestLoop_sleeps_mono cfg script url params ttl now hnh
      (maxRetries + 1) 0 1 (cacheGet cfg store url params now).2
      (by omega) (by omega)).1

/-- Network script for the C5 witness: hint-free 429, then 500, then
200. -/
def scriptC5w : Nat → Attempt
  | 0 => .response 429 none .null
  | 1 => .response 500 none .null
  | _ => .response 200 none (.obj [("win", .bool true)])

/-- Witness for the amended C5 at a concrete input: the hint-free run
sleeps `[1, 2]`, which is non-decreasing. -/
theorem retry_delays_monotone_without_hints_witness :
    (∀ j, noHint (scriptC5w j) = true) ∧
    List.Chain' (· ≤ ·) (makeRequest cfg0 scriptC5w [] "u" none 3 none 0).1.sleeps ∧
    (makeRequest cfg0 scriptC5w [] "u" none 3 none 0).1.sleeps = [1, 2] :=
  ⟨fun j => by match j with | 0 => rfl | 1 => rfl | n + 2 => rfl,
    retry_delays_monotone_without_hints cfg0 scriptC5w [] "u" none 3 none 0
      (fun j => by match j with | 0 => rfl | 1 => rfl | n + 2 => rfl),
    rfl⟩

/-- C7: a fetch that misses the cache and whose first network response
is a 4xx other than 429 fails immediately: result `None`, exactly one
network attempt, and no backoff sleep at all. -/
theorem fail_fast_on_client_error (cfg : CacheConfig) (script : Nat → Attempt)
    (store : List FileRec) (url : String)
    (params : Option (List (String × String))) (maxRetries : Nat)
    (ttl : Option Int) (now : Int) (status : Nat) (ra : Option Int)
    (body : JsonValue)
    (hmiss : truthyHit (cacheGet cfg store url params now).1 = false)
    (h0 : script 0 = .response status ra body)
    (h400 : 400 ≤ status) (h500 : status < 500) (h429 : status ≠ 429) :
    (makeRequest cfg script store url params maxRetries ttl now).1.result = none ∧
    (makeRequest cfg script store url params maxRetries ttl now).1.attempts = 1 ∧
    (makeRequest cfg script store url params maxRetries ttl now).1.sleeps = [] := by
  simp only [makeRequest]
  rw [if_neg (by simp [hmiss])]
  show (requestLoop cfg script url params ttl now (maxRetries + 1) 0 1 _).1.result
      = none ∧ _ ∧ _
  simp only [requestLoop, h0]
  rw [if_neg (by omega : ¬ status = 200), if_neg h429,
    if_pos (⟨h400, h500⟩ : 400 ≤ status ∧ status < 500)]
  exact ⟨rfl, rfl, rfl⟩

/-- Network script for the C7 witness: a single 404. -/
def scriptC7 : Nat → Attempt := fun _ => .response 404 none .null

/-- Witness for C7 at a concrete input: a 404 on an empty cache gives
`None`, one attempt, zero sleeps. -/
theorem fail_fast_on_client_error_witness :
    truthyHit (cacheGet cfg0 [] "u" none 0).1 = false ∧
    scriptC7 0 = .response 404 none .null ∧
    ((makeRequest cfg0 scriptC7 [] "u" none 3 none 0).1.result = none ∧
      (makeRequest cfg0 scriptC7 [] "u" none 3 none 0).1.attempts = 1 ∧
      (makeRequest cfg0 scriptC7 [] "u" none 3 none 0).1.sleeps = []) :=
  ⟨rfl, rfl,
    fail_fast_on_client_error cfg0 scriptC7 [] "u" none 3 none 0 404 none .null
      rfl rfl (by omega) (by omega) (by omega)⟩

/-- A store holding a fresh, well-formed entry for `"u"` whose payload
is the empty JSON object `{}` — a perfectly valid cached value that is
falsy in Python. -/
def storeC8 : List FileRec := [⟨"u", 0, .entry ⟨0, some 100, .obj []⟩⟩]

/-- Network script for the C8 counterexample: every call succeeds with
payload `7`. -/
def scriptC8 : Nat → Attempt := fun _ => .response 200 none (.num 7)

/-- C8 counterexample: the cache holds an unexpired entry for the
request whose payload is `{}`, yet `_make_request` performs one
network attempt and returns the network payload — `if cached_result:`
treats the falsy cached payload as a miss, refuting "zero network
attempts regardless of the cached payload's value". -/
theorem cached_falsy_payload_refetches_counterexample :
    (cacheGet cfg0 storeC8 "u" none 1).1 = some (.obj []) ∧
    (makeRequest cfg0 scriptC8 storeC8 "u" none 3 none 1).1.attempts = 1 ∧
    (makeRequest cfg0 scriptC8 storeC8 "u" none 3 none 1).1.result = some (.num 7) :=
  ⟨rfl, rfl, rfl⟩

/-- C8 amended: when the cache holds an unexpired entry whose payload
is truthy, the fetch returns that payload immediately with zero
network attempts, zero sleeps, and the store untouched; a falsy cached
payload is treated as a miss and the network is consulted. -/
theorem cache_hit_truthy_short_circuits (cfg : CacheConfig)
    (script : Nat → Attempt) (store : List FileRec) (url : String)
    (params : Option (List (String × String))) (maxRetries : Nat)
    (ttl : Option Int) (now : Int) (v : JsonValue)
    (hv : (cacheGet cfg store url params now).1 = some v)
    (ht : pyTruthy v = true) :
    (makeRequest cfg script store url params maxRetries ttl now).1.result = some v ∧
    (makeRequest cfg script store url params maxRetries ttl now).1.attempts = 0 ∧
    (makeRequest cfg script store url params maxRetries ttl now).1.sleeps = [] ∧
    (makeRequest cfg script store url params maxRetries ttl now).2 = store := by
  have hhit : truthyHit (cacheGet cfg store url params now).1 = true := by
    rw [hv]; exact ht
  simp only [makeRequest]
  rw [if_pos hhit]
  exact ⟨hv, rfl, rfl, cacheGet_hit_store_eq cfg store url params now v hv⟩

/-- A store holding a fresh entry for `"u"` with the truthy payload
`7`. -/
def storeC8w : List FileRec := [⟨"u", 0, .entry ⟨0, some 100, .num 7⟩⟩]

/-- Witness for the amended C8 at a concrete input: the truthy cached
payload `7` is returned with zero attempts, even though the network
script would answer 404. -/
theorem cache_hit_truthy_short_circuits_witness :
    (cacheGet cfg0 storeC8w "u" none 1).1 = some (.num 7) ∧
    pyTruthy (.num 7) = true ∧
    ((makeRequest cfg0 scriptC7 storeC8w "u" none 3 none 1).1.result = some (.num 7) ∧
      (makeRequest cfg0 scriptC7 storeC8w "u" none 3 none 1).1.attempts = 0 ∧
      (makeRequest cfg0 scriptC7 storeC8w "u" none 3 none 1).1.sleeps = [] ∧
      (makeRequest cfg0 scriptC7 storeC8w "u" none 3 none 1).2 = storeC8w) :=
  ⟨rfl, rfl,
    cache_hit_truthy_short_circuits cfg0 scriptC7 storeC8w "u" none 3 none 1
      (.num 7) rfl rfl⟩

/-- Identity-resolution result for the C9 counterexample. -/
def summonerC9 : Option JsonValue := some (.obj [("puuid", .str "p")])

/-- Match-id listing result for the C9 counterexample: three ids. -/
def idsC9 : JsonValue → Option JsonValue :=
  fun _ => some (.arr [.str "a", .str "b", .str "c"])

/-- Detail fetch for the C9 counterexample: all three fetches succeed,
but the second returns the falsy payload `{}`. -/
def detailC9 : JsonValue → Option JsonValue
  | .str "a" => some (.obj [("id", .str "a")])
  | .str "b" => some (.obj [])
  | .str "c" => some (.obj [("id", .str "c")])
  | _ => none

/-- C9 counterexample: all three match-detail fetches succeed (none is
a failure), yet `get_recent_matches` returns only two of the three
details — the successfully fetched but falsy `{}` detail of the second
id is dropped by `if match_detail:`, refuting "the returned list
contains the successfully fetched match details". -/
theorem recent_matches_drops_successful_detail_counterexample :
    (detailC9 (.str "a")).isSome = true ∧
    (detailC9 (.str "b")).isSome = true ∧
    (detailC9 (.str "c")).isSome = true ∧
    idsC9 (.str "p") = some (.arr [.str "a", .str "b", .str "c"]) ∧
    getRecentMatches summonerC9 idsC9 detailC9 =
      [.obj [("id", .str "a")], .obj [("id", .str "c")]] :=
  ⟨rfl, rfl, rfl, rfl, rfl⟩

/-- C9 amended: a failure at identity resolution or at match-id
listing yields an empty result; a detail fetch that fails — or
succeeds with a falsy value — skips only that match; when every
successful detail is truthy, the returned list is exactly the
successfully fetched details in the original match-id order. -/
theorem recent_matches_graceful_degrade (summonerRes : Option JsonValue)
    (getIds getDetail : JsonValue → Option JsonValue) :
    (summonerRes = none → getRecentMatches summonerRes getIds getDetail = []) ∧
    (∀ s, summonerRes = some s → jsonGet s "puuid" = none →
      getRecentMatches summonerRes getIds getDetail = []) ∧
    (∀ s p, summonerRes = some s → jsonGet s "puuid" = some p →
      getIds p = none → getRecentMatches summonerRes getIds getDetail = []) ∧
    (∀ s p ids, summonerRes = some s → pyTruthy s = true →
      jsonGet s "puuid" = some p → pyTruthy p = true →
      getIds p = some ids → pyTruthy ids = true →
      (∀ mid d, getDetail mid = some d → pyTruthy d = true) →
      getRecentMatches summonerRes getIds getDetail =
        (jsonIter ids).filterMap getDetail) := by
  refine ⟨?_, ?_, ?_, ?_⟩
  · intro h; subst h; rfl
  · intro s hs hp
    subst hs
    simp [getRecentMatches, hp]
  · intro s p hs hp hids
    subst hs
    simp [getRecentMatches, hp, hids]
  · intro s p ids hs hts hp htp hids htids hdet
    subst hs
    simp only [getRecentMatches, truthyHit, hts, hp, htp, hids, htids,
      Bool.not_true, Bool.false_eq_true, if_false]
    refine List.filterMap_congr fun mid _ => ?_
    cases hd : getDetail mid with
    | none => rfl
    | some d => simp [hdet mid d hd]

/-- Identity-resolution result for the C9 witness. -/
def summonerC9w : Option JsonValue := some (.obj [("puuid", .str "p")])

/-- Match-id listing for the C9 witness: three ids. -/
def getIdsC9w : JsonValue → Option JsonValue :=
  fun _ => some (.arr [.str "a", .str "b", .str "c"])

/-- Detail fetch for the C9 witness: the second id fails fatally, the
others succeed with truthy payloads. -/
def getDetailC9w : JsonValue → Option JsonValue
  | .str s => if s = "b" then none else some (.arr [.str s])
  | _ => none

/-- Witness for the amended C9 at the spec's own test input: of three
ids the second detail fetch fails, and the call returns the two
successful details in original order. -/
theorem recent_matches_graceful_degrade_witness :
    (∀ mid d, getDetailC9w mid = some d → pyTruthy d = true) ∧
    getRecentMatches summonerC9w getIdsC9w getDetailC9w =
      [.arr [.str "a"], .arr [.str "c"]] := by
  have hdet : ∀ mid d, getDetailC9w mid = some d → pyTruthy d = true := by
    intro mid d h
    cases mid with
    | str s =>
      by_cases hb : s = "b"
      · simp [getDetailC9w, hb] at h
      · simp [getDetailC9w, hb] at h
        subst h
        rfl
    | null => exact Option.noConfusion h
    | bool b => exact Option.noConfusion h
    | num n => exact Option.noConfusion h
    | arr xs => exact Option.noConfusion h
    | obj kvs => exact Option.noConfusion h
  exact ⟨hdet,
    ((recent_matches_graceful_degrade summonerC9w getIdsC9w getDetailC9w).2.2.2
      (.obj [("puuid", .str "p")]) (.str "p") (.arr [.str "a", .str "b", .str "c"])
      rfl rfl rfl rfl rfl rfl hdet).trans rfl⟩
